import Mathlib

/-!
Verification of the `code_review_assistant` crate: the review-thread data
model (`review_thread.rs`), the response classifier and prompt builder, and
the panel controller (`review_panel.rs`), shallowly embedded in Lean.
Rust string primitives (`trim`, `to_lowercase`, `contains`, `starts_with`,
`lines`, `join`) are modelled as executable functions over `List Char`.
Process-global atomic id counters (`CommentId::new`, `ThreadId::new`) are
modelled by passing the freshly allocated id as an explicit argument.
-/

namespace CodeReviewAssistant

/-- The triple-backtick code fence marker. -/
def fenceMarker : String := "\x60\x60\x60"

def trimChars (l : List Char) : List Char :=
  ((l.dropWhile Char.isWhitespace).reverse.dropWhile Char.isWhitespace).reverse

/-- Model of Rust `str::trim`. -/
def rustTrim (s : String) : String := String.mk (trimChars s.data)

/-- Model of Rust `str::to_lowercase` (the trigger phrases are ASCII). -/
def rustToLower (s : String) : String := String.mk (s.data.map Char.toLower)

def isPrefixChars : List Char → List Char → Bool
  | [], _ => true
  | _ :: _, [] => false
  | a :: as, b :: bs => a == b && isPrefixChars as bs

def containsSub (needle : List Char) : List Char → Bool
  | [] => isPrefixChars needle []
  | c :: rest => isPrefixChars needle (c :: rest) || containsSub needle rest

/-- Model of Rust `str::contains` with a string pattern. -/
def rustContains (hay needle : String) : Bool := containsSub needle.data hay.data

/-- Model of Rust `str::starts_with` with a string pattern. -/
def rustStartsWith (s pat : String) : Bool := isPrefixChars pat.data s.data

def splitOnNl : List Char → List (List Char)
  | [] => [[]]
  | c :: rest =>
    if c = '\n' then [] :: splitOnNl rest
    else
      match splitOnNl rest with
      | [] => [[c]]
      | l :: ls => (c :: l) :: ls

def stripTrailingCr (l : List Char) : List Char :=
  match l.reverse with
  | '\r' :: r => r.reverse
  | _ => l

/-- Model of Rust `str::lines`: split on newline (a trailing line terminator
produces no final empty line) and strip one trailing carriage return from
each line. -/
def rustLines (s : String) : List String :=
  let segs := splitOnNl s.data
  let segs :=
    match segs.reverse with
    | [] :: r => r.reverse
    | _ => segs
  segs.map (fun l => String.mk (stripTrailingCr l))

/-- Model of Rust `[&str]::join("\n")`. -/
def joinNl : List String → String
  | [] => ""
  | [l] => l
  | l :: l2 :: rest => l ++ "\n" ++ joinNl (l2 :: rest)

/-! ## Domain model, from `review_thread.rs` -/

/-- `ReviewSeverity` from `review_thread.rs`. -/
inductive ReviewSeverity
  | Info
  | Suggestion
  | Warning
  | Error
deriving DecidableEq

/-- `CommentRole` from `review_thread.rs`. -/
inductive CommentRole
  | User
  | Assistant
deriving DecidableEq

/-- `ReviewComment` from `review_thread.rs` (`CommentId` modelled as `Nat`). -/
structure ReviewComment where
  id : Nat
  role : CommentRole
  content : String
  severity : Option ReviewSeverity
  suggested_code : Option String
deriving DecidableEq

/-- `ReviewComment::user`; the freshly allocated `CommentId` is explicit. -/
def ReviewComment.user (cid : Nat) (content : String) : ReviewComment :=
  { id := cid, role := CommentRole.User, content := content,
    severity := none, suggested_code := none }

/-- `ReviewComment::ai`; the freshly allocated `CommentId` is explicit. -/
def ReviewComment.ai (cid : Nat) (content : String) (severity : ReviewSeverity)
    (suggested_code : Option String) : ReviewComment :=
  { id := cid, role := CommentRole.Assistant, content := content,
    severity := some severity, suggested_code := suggested_code }

/-- `CodeSelection` from `review_thread.rs`; the path is its displayed text,
the 1-indexed exclusive-end `line_range` is the pair `line_start`/`line_end`,
and the opaque `anchor_range` is omitted. -/
structure CodeSelection where
  file_path : String
  language : Option String
  selected_text : String
  context : String
  line_start : Nat
  line_end : Nat
deriving DecidableEq

/-- `ReviewThread` from `review_thread.rs` (`ThreadId` modelled as `Nat`). -/
structure ReviewThread where
  id : Nat
  selection : CodeSelection
  comments : List ReviewComment
  is_loading : Bool
  is_resolved : Bool
  is_collapsed : Bool
deriving DecidableEq

/-- `ReviewThread::new`; the freshly allocated thread and comment ids are
explicit. -/
def ReviewThread.new (tid cid : Nat) (selection : CodeSelection)
    (initial_question : String) : ReviewThread :=
  { id := tid, selection := selection,
    comments := [ReviewComment.user cid initial_question],
    is_loading := true, is_resolved := false, is_collapsed := false }

/-- `ReviewThread::add_user_comment`. -/
def ReviewThread.add_user_comment (t : ReviewThread) (cid : Nat)
    (content : String) : ReviewThread :=
  { t with comments := t.comments ++ [ReviewComment.user cid content],
           is_loading := true }

/-- `ReviewThread::add_ai_response`. -/
def ReviewThread.add_ai_response (t : ReviewThread) (cid : Nat)
    (content : String) (severity : ReviewSeverity)
    (suggested_code : Option String) : ReviewThread :=
  { t with
    comments := t.comments ++ [ReviewComment.ai cid content severity suggested_code],
    is_loading := false }

/-- `ReviewThread::set_loading`. -/
def ReviewThread.set_loading (t : ReviewThread) (loading : Bool) : ReviewThread :=
  { t with is_loading := loading }

/-- `ReviewThread::resolve`. -/
def ReviewThread.resolve (t : ReviewThread) : ReviewThread :=
  { t with is_resolved := true }

/-- `ReviewThread::toggle_collapsed`. -/
def ReviewThread.toggle_collapsed (t : ReviewThread) : ReviewThread :=
  { t with is_collapsed := !t.is_collapsed }

/-! ## Response classifier, from `review_panel.rs` -/

/-- The `Error`-tier trigger disjunction of `detect_severity`. -/
def has_error_trigger (lower : String) : Bool :=
  rustContains lower "error:" || rustContains lower "bug"
    || rustContains lower "security" || rustContains lower "critical"
    || rustContains lower "vulnerability"

/-- The `Warning`-tier trigger disjunction of `detect_severity`. -/
def has_warning_trigger (lower : String) : Bool :=
  rustContains lower "warning:" || rustContains lower "potential issue"
    || rustContains lower "should consider" || rustContains lower "might cause"

/-- The `Suggestion`-tier trigger disjunction of `detect_severity`. -/
def has_suggestion_trigger (lower : String) : Bool :=
  rustContains lower "suggestion:" || rustContains lower "could be improved"
    || rustContains lower "consider" || rustContains lower "recommend"

/-- `detect_severity` from `review_panel.rs` lines 735-760. -/
def detect_severity (response : String) : ReviewSeverity :=
  let lower := rustToLower response
  if has_error_trigger lower then ReviewSeverity.Error
  else if has_warning_trigger lower then ReviewSeverity.Warning
  else if has_suggestion_trigger lower then ReviewSeverity.Suggestion
  else ReviewSeverity.Info

/-- The line loop of `extract_code_suggestion`: `some` is the `break` with
`found_suggestion = true`, reaching the end of the lines yields `none`
(`found_suggestion` still false). -/
def extractLoop : List String → Bool → List String → Option (List String)
  | [], _, _ => none
  | line :: rest, in_code_block, code_lines =>
    if rustStartsWith (rustTrim line) fenceMarker then
      if in_code_block && !code_lines.isEmpty then some code_lines
      else extractLoop rest (!in_code_block) []
    else if in_code_block then extractLoop rest in_code_block (code_lines ++ [line])
    else extractLoop rest in_code_block code_lines

/-- `extract_code_suggestion` from `review_panel.rs` lines 762-787. -/
def extract_code_suggestion (response : String) : Option String :=
  (extractLoop (rustLines response) false []).map joinNl

/-- Whether a line toggles the code fence (`line.trim().starts_with("...")`). -/
def lineIsFence (line : String) : Bool :=
  rustStartsWith (rustTrim line) fenceMarker

/-! ## Prompt builder and model request, from `review_panel.rs` -/

/-- `Role` from the `language_model` crate (only `User` is used here). -/
inductive Role
  | System
  | User
  | Assistant
deriving DecidableEq

/-- `LanguageModelRequestMessage` (the fields used by this crate). -/
structure LanguageModelRequestMessage where
  role : Role
  content : String
  cache : Bool
deriving DecidableEq

/-- `LanguageModelRequest` (the fields used by this crate); tool definitions
are opaque, the list is only ever empty here. -/
structure LanguageModelRequest where
  messages : List LanguageModelRequestMessage
  tools : List String
  stop : List String
  temperature : Option ℚ
deriving DecidableEq

/-- `build_review_prompt` from `review_panel.rs` lines 656-704: the
sequence of `push_str` calls, with the code-fence literal factored through
`fenceMarker` and the `format!` interpolations written as concatenations. -/
def build_review_prompt (thread : ReviewThread) (custom_prompt : Option String) :
    String :=
  let prompt := ""
  let prompt :=
    match custom_prompt with
    | some custom => prompt ++ custom ++ "\n\n"
    | none => prompt
  let prompt := prompt
    ++ "You are an expert code reviewer. Analyze the following code and provide constructive feedback.\n\n"
  let prompt := prompt ++ "## Guidelines:\n"
  let prompt := prompt ++ "- Focus on code quality, potential bugs, and best practices\n"
  let prompt := prompt ++ "- Provide specific, actionable suggestions\n"
  let prompt := prompt ++ "- If you suggest code changes, provide the improved code\n"
  let prompt := prompt ++ "- Be concise but thorough\n"
  let prompt := prompt
    ++ "- Categorize your feedback by severity: Error (bugs/security issues), Warning (potential problems), Suggestion (improvements), or Info (explanations)\n\n"
  let prompt :=
    match thread.selection.language with
    | some lang => prompt ++ ("## Language: " ++ lang ++ "\n\n")
    | none => prompt
  let prompt := prompt
    ++ ("## File: " ++ thread.selection.file_path
        ++ " (lines " ++ toString thread.selection.line_start
        ++ "-" ++ toString (thread.selection.line_end - 1) ++ ")\n\n")
  let prompt := prompt ++ ("## Context (surrounding code):\n" ++ fenceMarker ++ "\n")
  let prompt := prompt ++ thread.selection.context
  let prompt := prompt ++ ("\n" ++ fenceMarker ++ "\n\n")
  let prompt := prompt ++ ("## Selected code to review:\n" ++ fenceMarker ++ "\n")
  let prompt := prompt ++ thread.selection.selected_text
  let prompt := prompt ++ ("\n" ++ fenceMarker ++ "\n\n")
  let prompt := prompt ++ "## User\x27s question/request:\n"
  let prompt := thread.comments.foldl
    (fun p c => if c.role == CommentRole.User then p ++ c.content ++ "\n" else p)
    prompt
  prompt ++ "\n## Your review:\n"

/-- The `LanguageModelRequest` built in `request_ai_review`
(`review_panel.rs` lines 227-236): a single user message, no tools, no stop
sequences, temperature 0.3. -/
def review_request (prompt : String) : LanguageModelRequest :=
  { messages := [{ role := Role.User, content := prompt, cache := false }],
    tools := [], stop := [], temperature := some (3 / 10 : ℚ) }

/-! ## Streaming, from `review_panel.rs` -/

/-- The chunk loop of `stream_ai_response`: accumulate `Ok` chunks in
arrival order; a failing chunk is terminal and discards the accumulator.
After the stream ends the classifier runs once over the full text. -/
def accumulate_stream :
    List (Except String String) → String →
      Except String (String × ReviewSeverity × Option String)
  | [], acc =>
    Except.ok (acc, detect_severity acc, extract_code_suggestion acc)
  | Except.ok text :: rest, acc => accumulate_stream rest (acc ++ text)
  | Except.error e :: _, _ => Except.error ("Stream error: " ++ e)

/-- `stream_ai_response` from `review_panel.rs` lines 706-733. The model
client is abstracted as: does the stream start (`start_ok`), and the chunk
sequence it then yields. A start failure surfaces as the
`anyhow` context message shown by `Display`. -/
def stream_ai_response (start_ok : Bool)
    (chunks : List (Except String String)) :
    Except String (String × ReviewSeverity × Option String) :=
  if start_ok then accumulate_stream chunks ""
  else Except.error "Failed to start AI stream"

/-! ## Panel controller, from `review_panel.rs` -/

/-- The controller state of `CodeReviewPanel`: the thread collection, the
selected thread, the keys of the pending-task map (task handles are
opaque), and the input editor text. -/
structure CodeReviewPanel where
  threads : List ReviewThread
  selected_thread : Option Nat
  pending_tasks : List Nat
  input_text : String
deriving DecidableEq

/-- The default question used when the input editor is empty
(`review_panel.rs` line 190). -/
def default_question : String :=
  "Please review this code and provide feedback on potential improvements, issues, or best practices."

/-- The error message for a missing model (`review_panel.rs` line 221). -/
def no_model_message : String :=
  "No AI model configured. Please set up a language model in settings."

/-- `self.threads.iter_mut().find(|t| t.id == thread_id)` followed by a
mutation: rewrite the first thread with the given id, leave the rest. -/
def updateThread (tid : Nat) (f : ReviewThread → ReviewThread) :
    List ReviewThread → List ReviewThread
  | [] => []
  | t :: ts => if t.id = tid then f t :: ts else t :: updateThread tid f ts

/-- `HashMap::insert` on the pending-task map, tracked at the level of its
key set. -/
def insertKey (k : Nat) (l : List Nat) : List Nat :=
  if k ∈ l then l else l ++ [k]

/-- `add_error_to_thread` from `review_panel.rs` lines 268-279; the fresh
`CommentId` is explicit. -/
def add_error_to_thread (panel : CodeReviewPanel) (tid cid : Nat)
    (message : String) : CodeReviewPanel :=
  { panel with
    threads := updateThread tid
      (fun t => (t.add_ai_response cid message ReviewSeverity.Error none).set_loading false)
      panel.threads }

/-- The synchronous part of `request_ai_review` (`review_panel.rs` lines
208-266): unknown thread id is an early-return no-op; with no active model
an error comment is added synchronously and no task is registered;
otherwise the spawned task is recorded in the pending map. The spawned
task body is `on_stream_result` below. -/
def request_ai_review (panel : CodeReviewPanel) (tid : Nat)
    (model_configured : Bool) (ecid : Nat) : CodeReviewPanel :=
  match panel.threads.find? (fun t => t.id == tid) with
  | none => panel
  | some _ =>
    if model_configured then
      { panel with pending_tasks := insertKey tid panel.pending_tasks }
    else
      add_error_to_thread panel tid ecid no_model_message

/-- The completion closure spawned by `request_ai_review`
(`review_panel.rs` lines 243-260): merge the stream result into the thread
(if it still exists) and drop the pending-task entry. -/
def on_stream_result (panel : CodeReviewPanel) (tid cid : Nat)
    (result : Except String (String × ReviewSeverity × Option String)) :
    CodeReviewPanel :=
  let panel1 :=
    match result with
    | Except.ok (content, severity, suggestion) =>
      { panel with
        threads := updateThread tid
          (fun t => t.add_ai_response cid content severity suggestion)
          panel.threads }
    | Except.error err =>
      add_error_to_thread panel tid cid ("Failed to get AI response: " ++ err)
  { panel1 with pending_tasks := panel1.pending_tasks.erase tid }

/-- `review_current_selection` from `review_panel.rs` lines 119-206, given
the selection already extracted by the editor collaborator (an empty
selection range extracts empty text, so `selection.is_empty()` is the
first guard below). Fresh thread/comment ids and the model-registry state
are explicit. -/
def review_current_selection (panel : CodeReviewPanel) (sel : CodeSelection)
    (tid cid : Nat) (model_configured : Bool) (ecid : Nat) : CodeReviewPanel :=
  if sel.selected_text = "" then panel
  else if rustTrim sel.selected_text = "" then panel
  else
    let question :=
      if rustTrim panel.input_text = "" then default_question else panel.input_text
    let thread := ReviewThread.new tid cid sel question
    let panel1 :=
      { panel with threads := panel.threads ++ [thread],
                   selected_thread := some tid, input_text := "" }
    request_ai_review panel1 tid model_configured ecid

/-- `add_followup` from `review_panel.rs` lines 281-293. -/
def add_followup (panel : CodeReviewPanel) (tid : Nat) (question : String)
    (cid : Nat) (model_configured : Bool) (ecid : Nat) : CodeReviewPanel :=
  let panel1 :=
    { panel with
      threads := updateThread tid (fun t => t.add_user_comment cid question)
        panel.threads }
  request_ai_review panel1 tid model_configured ecid

/-- `clear_threads` from `review_panel.rs` lines 295-300. -/
def clear_threads (panel : CodeReviewPanel) : CodeReviewPanel :=
  { panel with threads := [], selected_thread := none, pending_tasks := [] }

/-- `resolve_thread` from `review_panel.rs` lines 302-307. -/
def resolve_thread (panel : CodeReviewPanel) (tid : Nat) : CodeReviewPanel :=
  { panel with threads := updateThread tid ReviewThread.resolve panel.threads }

/-- `toggle_thread_collapsed` from `review_panel.rs` lines 309-314. -/
def toggle_thread_collapsed (panel : CodeReviewPanel) (tid : Nat) :
    CodeReviewPanel :=
  { panel with
    threads := updateThread tid ReviewThread.toggle_collapsed panel.threads }

/-! ## Invariants and spec-side descriptions -/

/-- A comment list is non-empty and headed by a User comment. -/
def firstIsUser (l : List ReviewComment) : Bool :=
  match l with
  | [] => false
  | c :: _ => c.role == CommentRole.User

/-- Thread-level invariant: `comments` is non-empty and its first element
is User-authored. -/
def firstCommentIsUser (t : ReviewThread) : Bool := firstIsUser t.comments

/-- Registry-level invariant: every thread satisfies `firstCommentIsUser`. -/
def PanelInv (panel : CodeReviewPanel) : Prop :=
  ∀ t ∈ panel.threads, firstCommentIsUser t = true

/-- Modelled from the spec: the prompt blocks in the order that section 4.2
prescribes — custom instructions when present, then the fixed persona and
guideline block, then the language tag when known, then the file path with
the 1-indexed inclusive line range, then the fenced context, then the
fenced selection, then every User-authored comment in thread order, then
the trailing review cue. -/
def spec_prompt_sections (thread : ReviewThread) (custom_prompt : Option String) :
    List String :=
  (match custom_prompt with
   | some custom => [custom ++ "\n\n"]
   | none => [])
  ++ ["You are an expert code reviewer. Analyze the following code and provide constructive feedback.\n\n"
      ++ "## Guidelines:\n"
      ++ "- Focus on code quality, potential bugs, and best practices\n"
      ++ "- Provide specific, actionable suggestions\n"
      ++ "- If you suggest code changes, provide the improved code\n"
      ++ "- Be concise but thorough\n"
      ++ "- Categorize your feedback by severity: Error (bugs/security issues), Warning (potential problems), Suggestion (improvements), or Info (explanations)\n\n"]
  ++ (match thread.selection.language with
      | some lang => ["## Language: " ++ lang ++ "\n\n"]
      | none => [])
  ++ ["## File: " ++ thread.selection.file_path
      ++ " (lines " ++ toString thread.selection.line_start
      ++ "-" ++ toString (thread.selection.line_end - 1) ++ ")\n\n"]
  ++ ["## Context (surrounding code):\n" ++ fenceMarker ++ "\n"
      ++ thread.selection.context ++ ("\n" ++ fenceMarker ++ "\n\n")]
  ++ ["## Selected code to review:\n" ++ fenceMarker ++ "\n"
      ++ thread.selection.selected_text ++ ("\n" ++ fenceMarker ++ "\n\n")]
  ++ ["## User\x27s question/request:\n"]
  ++ (thread.comments.filter (fun c => c.role == CommentRole.User)).map
      (fun c => c.content ++ "\n")
  ++ ["\n## Your review:\n"]

/-- A concrete selection used to instantiate the theorems below. -/
def sampleSelection : CodeSelection :=
  { file_path := "src/lib.rs", language := some "Rust",
    selected_text := "fn f() \x7b\x7d", context := "mod m;\nfn f() \x7b\x7d",
    line_start := 3, line_end := 4 }

/-- A concrete thread used to instantiate the theorems below. -/
def sampleThread : ReviewThread := ReviewThread.new 1 1 sampleSelection "Check this"

/-- A concrete panel state used to instantiate the theorems below. -/
def samplePanel : CodeReviewPanel :=
  { threads := [sampleThread], selected_thread := some 1,
    pending_tasks := [1], input_text := "" }

/-! ## Helper lemmas -/

theorem isPrefixChars_iff (n h : List Char) : isPrefixChars n h = true ↔ n <+: h := by
  induction n generalizing h with
  | nil => simp [isPrefixChars]
  | cons a as ih =>
    cases h with
    | nil => simp [isPrefixChars]
    | cons b bs =>
      simp [isPrefixChars, ih, List.cons_prefix_cons, Bool.and_eq_true, beq_iff_eq]

theorem containsSub_iff (n h : List Char) : containsSub n h = true ↔ n <:+: h := by
  induction h with
  | nil => simp [containsSub, isPrefixChars_iff, List.prefix_nil, List.infix_nil]
  | cons c rest ih =>
    simp [containsSub, isPrefixChars_iff, ih, List.infix_cons_iff, Bool.or_eq_true]

theorem rustContains_toLower (s needle : String)
    (hfix : needle.data.map Char.toLower = needle.data)
    (h : rustContains s needle = true) :
    rustContains (rustToLower s) needle = true := by
  unfold rustContains at h ⊢
  rw [containsSub_iff] at h ⊢
  have h2 := h.map Char.toLower
  rw [hfix] at h2
  simpa [rustToLower] using h2

theorem extractLoop_no_fence (ls : List String) (b : Bool) (acc : List String)
    (h : ∀ l ∈ ls, lineIsFence l = false) : extractLoop ls b acc = none := by
  induction ls generalizing b acc with
  | nil => simp [extractLoop]
  | cons l rest ih =>
    have hl : rustStartsWith (rustTrim l) fenceMarker = false := h l (by simp)
    have hrest : ∀ x ∈ rest, lineIsFence x = false := fun x hx => h x (by simp [hx])
    cases b with
    | false => simp [extractLoop, hl, ih false acc hrest]
    | true => simp [extractLoop, hl, ih true (acc ++ [l]) hrest]

theorem extractLoop_skip (pre ls : List String) (acc : List String)
    (h : ∀ l ∈ pre, lineIsFence l = false) :
    extractLoop (pre ++ ls) false acc = extractLoop ls false acc := by
  induction pre with
  | nil => simp
  | cons l rest ih =>
    have hl : rustStartsWith (rustTrim l) fenceMarker = false := h l (by simp)
    have hrest : ∀ x ∈ rest, lineIsFence x = false := fun x hx => h x (by simp [hx])
    simp [extractLoop, hl, ih hrest]

theorem extractLoop_in_block (block : List String) (post : List String)
    (acc : List String) (f : String) (hf : lineIsFence f = true)
    (hblock : ∀ l ∈ block, lineIsFence l = false)
    (hne : acc ++ block ≠ []) :
    extractLoop (block ++ f :: post) true acc = some (acc ++ block) := by
  induction block generalizing acc with
  | nil =>
    have hf2 : rustStartsWith (rustTrim f) fenceMarker = true := hf
    have hacc : acc ≠ [] := by simpa using hne
    have hnotempty : acc.isEmpty = false := by
      cases acc with
      | nil => exact absurd rfl hacc
      | cons a as => rfl
    simp [extractLoop, hf2, hnotempty]
  | cons l rest ih =>
    have hl : rustStartsWith (rustTrim l) fenceMarker = false := hblock l (by simp)
    have hrest : ∀ x ∈ rest, lineIsFence x = false := fun x hx => hblock x (by simp [hx])
    have hne2 : (acc ++ [l]) ++ rest ≠ [] := by simp
    have hstep := ih (acc ++ [l]) hrest hne2
    simp only [List.cons_append, extractLoop, hl]
    simpa [List.append_assoc] using hstep

theorem string_foldl_append (l : List String) (init : String) :
    l.foldl (fun a b => a ++ b) init = init ++ String.join l := by
  induction l generalizing init with
  | nil => simp [String.join]
  | cons s rest ih =>
    have h1 : String.join (s :: rest) = s ++ String.join rest := by
      show List.foldl (fun a b => a ++ b) ("" ++ s) rest = _
      rw [ih, String.empty_append]
    simp only [List.foldl_cons]
    rw [ih, h1, String.append_assoc]

theorem string_join_cons (s : String) (l : List String) :
    String.join (s :: l) = s ++ String.join l := by
  show List.foldl (fun a b => a ++ b) ("" ++ s) l = _
  rw [string_foldl_append, String.empty_append]

theorem string_join_nil : String.join ([] : List String) = "" := rfl

theorem string_join_append (l1 l2 : List String) :
    String.join (l1 ++ l2) = String.join l1 ++ String.join l2 := by
  induction l1 with
  | nil => simp [String.join, String.empty_append]
  | cons s rest ih =>
    simp only [List.cons_append, string_join_cons, ih, String.append_assoc]

theorem accumulate_stream_ok (texts : List String) (acc : String) :
    accumulate_stream (texts.map Except.ok) acc =
      Except.ok (acc ++ String.join texts,
        detect_severity (acc ++ String.join texts),
        extract_code_suggestion (acc ++ String.join texts)) := by
  induction texts generalizing acc with
  | nil => simp [accumulate_stream, String.join]
  | cons t rest ih =>
    simp only [List.map_cons, accumulate_stream]
    rw [ih (acc ++ t), string_join_cons, ← String.append_assoc]

theorem accumulate_stream_error (okpre : List String) (e : String)
    (rest : List (Except String String)) (acc : String) :
    accumulate_stream (okpre.map Except.ok ++ Except.error e :: rest) acc =
      Except.error ("Stream error: " ++ e) := by
  induction okpre generalizing acc with
  | nil => simp [accumulate_stream]
  | cons t ts ih => simp [accumulate_stream, ih]

theorem find?_threads_split (pre post : List ReviewThread) (t : ReviewThread)
    (tid : Nat) (ht : t.id = tid) (hpre : ∀ u ∈ pre, u.id ≠ tid) :
    (pre ++ t :: post).find? (fun u => u.id == tid) = some t := by
  induction pre with
  | nil => simp [List.find?_cons_of_pos, ht]
  | cons u us ih =>
    simp only [List.cons_append]
    rw [List.find?_cons_of_neg _ (by simp [hpre u (by simp)])]
    exact ih (fun v hv => hpre v (by simp [hv]))

theorem find?_threads_none (l : List ReviewThread) (tid : Nat)
    (h : ∀ u ∈ l, u.id ≠ tid) :
    l.find? (fun u => u.id == tid) = none := by
  induction l with
  | nil => rfl
  | cons u us ih =>
    rw [List.find?_cons_of_neg _ (by simp [h u (by simp)])]
    exact ih (fun v hv => h v (by simp [hv]))

theorem updateThread_split (pre post : List ReviewThread) (t : ReviewThread)
    (tid : Nat) (f : ReviewThread → ReviewThread)
    (ht : t.id = tid) (hpre : ∀ u ∈ pre, u.id ≠ tid) :
    updateThread tid f (pre ++ t :: post) = pre ++ f t :: post := by
  induction pre with
  | nil => simp [updateThread, ht]
  | cons u us ih =>
    simp only [List.cons_append, updateThread, hpre u (by simp), if_false]
    exact congrArg (u :: ·) (ih (fun v hv => hpre v (by simp [hv])))

theorem updateThread_id_of_not_mem (l : List ReviewThread) (tid : Nat)
    (f : ReviewThread → ReviewThread) (h : ∀ u ∈ l, u.id ≠ tid) :
    updateThread tid f l = l := by
  induction l with
  | nil => rfl
  | cons u us ih =>
    simp [updateThread, h u (by simp), ih (fun v hv => h v (by simp [hv]))]

/-! ## Claim theorems -/

/-- Claim C1: when the model request of a thread completes, a fully
successful stream appends exactly one Assistant comment carrying the
detected severity and the extracted suggestion, clears `is_loading`, and
removes the pending-task entry; a mid-stream chunk failure yields exactly
one Error-severity Assistant comment whose content is the error message,
clears `is_loading`, removes the pending-task entry, and no partial text
accumulated before the failing chunk (the arbitrary `okpre` prefix)
reaches the thread. -/
theorem c1_stream_completion
    (panel : CodeReviewPanel) (tid cid : Nat) (pre post : List ReviewThread)
    (t : ReviewThread) (texts okpre : List String) (e : String)
    (rest : List (Except String String))
    (hsplit : panel.threads = pre ++ t :: post) (hid : t.id = tid)
    (hpre : ∀ u ∈ pre, u.id ≠ tid) (hnd : panel.pending_tasks.Nodup) :
    stream_ai_response true (texts.map Except.ok) =
      Except.ok (String.join texts, detect_severity (String.join texts),
        extract_code_suggestion (String.join texts))
  ∧ (on_stream_result panel tid cid
        (stream_ai_response true (texts.map Except.ok))).threads =
      pre ++ { t with
        comments := t.comments ++ [ReviewComment.ai cid (String.join texts)
          (detect_severity (String.join texts))
          (extract_code_suggestion (String.join texts))],
        is_loading := false } :: post
  ∧ tid ∉ (on_stream_result panel tid cid
        (stream_ai_response true (texts.map Except.ok))).pending_tasks
  ∧ stream_ai_response true (okpre.map Except.ok ++ Except.error e :: rest) =
      Except.error ("Stream error: " ++ e)
  ∧ (on_stream_result panel tid cid
        (stream_ai_response true
          (okpre.map Except.ok ++ Except.error e :: rest))).threads =
      pre ++ { t with
        comments := t.comments ++ [ReviewComment.ai cid
          ("Failed to get AI response: Stream error: " ++ e)
          ReviewSeverity.Error none],
        is_loading := false } :: post
  ∧ tid ∉ (on_stream_result panel tid cid
        (stream_ai_response true
          (okpre.map Except.ok ++ Except.error e :: rest))).pending_tasks := by
  have hok : stream_ai_response true (texts.map Except.ok) =
      Except.ok (String.join texts, detect_severity (String.join texts),
        extract_code_suggestion (String.join texts)) := by
    have h1 := accumulate_stream_ok texts ""
    simpa [stream_ai_response, String.empty_append] using h1
  have herr : stream_ai_response true (okpre.map Except.ok ++ Except.error e :: rest) =
      Except.error ("Stream error: " ++ e) := by
    simp [stream_ai_response, accumulate_stream_error]
  have hmsg : "Failed to get AI response: " ++ ("Stream error: " ++ e) =
      "Failed to get AI response: Stream error: " ++ e := by
    rw [← String.append_assoc]
    rfl
  refine ⟨hok, ?_, ?_, herr, ?_, ?_⟩
  · rw [hok]
    simp only [on_stream_result, hsplit]
    rw [updateThread_split pre post t tid _ hid hpre]
    simp [ReviewThread.add_ai_response]
  · rw [hok]
    simp only [on_stream_result]
    exact hnd.not_mem_erase
  · rw [herr]
    simp only [on_stream_result, add_error_to_thread, hsplit, hmsg]
    rw [updateThread_split pre post t tid _ hid hpre]
    simp [ReviewThread.add_ai_response, ReviewThread.set_loading]
  · rw [herr]
    simp only [on_stream_result, add_error_to_thread]
    exact hnd.not_mem_erase

/-- Witness for C1: the error branch at a concrete panel, thread and
stream whose first chunk succeeded and second chunk failed. -/
theorem c1_stream_completion_witness :
    samplePanel.threads = [] ++ sampleThread :: []
  ∧ sampleThread.id = 1
  ∧ samplePanel.pending_tasks.Nodup
  ∧ (on_stream_result samplePanel 1 2
        (stream_ai_response true
          (["partial "].map Except.ok ++ Except.error "boom" :: []))).threads =
      [] ++ { sampleThread with
        comments := sampleThread.comments ++ [ReviewComment.ai 2
          ("Failed to get AI response: Stream error: " ++ "boom")
          ReviewSeverity.Error none],
        is_loading := false } :: [] :=
  ⟨rfl, rfl, by decide,
    (c1_stream_completion samplePanel 1 2 [] [] sampleThread
      ["Warning: ", "should consider edge cases"] ["partial "] "boom" []
      rfl rfl (by simp) (by decide)).2.2.2.2.1⟩

/-- Claim C2: severity detection is total and deterministic, lower-cases
the text and checks the trigger tiers in the priority order Error, then
Warning, then Suggestion, defaulting to Info; in particular any input
containing both "consider" and "security" is classified Error. -/
theorem c2_detect_severity_priority (s : String) :
    (has_error_trigger (rustToLower s) = true →
        detect_severity s = ReviewSeverity.Error)
  ∧ (has_error_trigger (rustToLower s) = false →
      has_warning_trigger (rustToLower s) = true →
        detect_severity s = ReviewSeverity.Warning)
  ∧ (has_error_trigger (rustToLower s) = false →
      has_warning_trigger (rustToLower s) = false →
      has_suggestion_trigger (rustToLower s) = true →
        detect_severity s = ReviewSeverity.Suggestion)
  ∧ (has_error_trigger (rustToLower s) = false →
      has_warning_trigger (rustToLower s) = false →
      has_suggestion_trigger (rustToLower s) = false →
        detect_severity s = ReviewSeverity.Info)
  ∧ (rustContains s "consider" = true → rustContains s "security" = true →
        detect_severity s = ReviewSeverity.Error) := by
  refine ⟨fun h1 => ?_, fun h1 h2 => ?_, fun h1 h2 h3 => ?_, fun h1 h2 h3 => ?_,
    fun _hc hs => ?_⟩
  · simp [detect_severity, h1]
  · simp [detect_severity, h1, h2]
  · simp [detect_severity, h1, h2, h3]
  · simp [detect_severity, h1, h2, h3]
  · have hsec : rustContains (rustToLower s) "security" = true :=
      rustContains_toLower s "security" (by decide) hs
    have herr : has_error_trigger (rustToLower s) = true := by
      simp [has_error_trigger, hsec]
    simp [detect_severity, herr]

/-- Witness for C2: a concrete input containing both "consider" and
"security" is classified Error. -/
theorem c2_detect_severity_priority_witness :
    rustContains "consider the security implications" "consider" = true
  ∧ rustContains "consider the security implications" "security" = true
  ∧ detect_severity "consider the security implications" = ReviewSeverity.Error :=
  ⟨by decide, by decide,
    (c2_detect_severity_priority "consider the security implications").2.2.2.2
      (by decide) (by decide)⟩

/-- Claim C3: suggestion extraction treats every line whose trimmed
content starts with a triple backtick as a fence toggle, returns the first
complete non-empty fenced block joined by newlines and stops there, and
returns none when no block completes or every complete block is empty; in
particular a single fenced block containing fn main() with empty braces
yields exactly that string and with two blocks only the first is
returned. -/
theorem c3_extract_code_suggestion
    (pre block post rest : List String) (f : String)
    (hf : lineIsFence f = true)
    (hpre : ∀ l ∈ pre, lineIsFence l = false)
    (hblock : ∀ l ∈ block, lineIsFence l = false)
    (hrest : ∀ l ∈ rest, lineIsFence l = false)
    (hne : block ≠ []) :
    extractLoop (pre ++ f :: (block ++ f :: post)) false [] = some block
  ∧ extractLoop pre false [] = none
  ∧ extractLoop (pre ++ f :: rest) false [] = none
  ∧ extract_code_suggestion
      "Here is a fix:\n\x60\x60\x60\nfn main() \x7b\x7d\n\x60\x60\x60\nDone"
      = some "fn main() \x7b\x7d"
  ∧ extract_code_suggestion "no fenced block here" = none
  ∧ extract_code_suggestion
      "\x60\x60\x60\nfirst\n\x60\x60\x60\nmiddle\n\x60\x60\x60\nsecond\n\x60\x60\x60"
      = some "first"
  ∧ extract_code_suggestion "\x60\x60\x60\n\x60\x60\x60\ntext" = none := by
  have hf2 : rustStartsWith (rustTrim f) fenceMarker = true := hf
  refine ⟨?_, extractLoop_no_fence _ _ _ hpre, ?_, by decide, by decide, by decide,
    by decide⟩
  · rw [extractLoop_skip _ _ _ hpre]
    have hstep : extractLoop (f :: (block ++ f :: post)) false [] =
        extractLoop (block ++ f :: post) true [] := by
      simp [extractLoop, hf2]
    rw [hstep, extractLoop_in_block block post [] f hf hblock (by simpa using hne)]
    simp
  · rw [extractLoop_skip _ _ _ hpre]
    have hstep : extractLoop (f :: rest) false [] = extractLoop rest true [] := by
      simp [extractLoop, hf2]
    rw [hstep]
    exact extractLoop_no_fence _ _ _ hrest

/-- Witness for C3: the first-block conjunct at concrete lines, with a
second fence following. -/
theorem c3_extract_code_suggestion_witness :
    lineIsFence "\x60\x60\x60" = true
  ∧ extractLoop
      (["intro"] ++ "\x60\x60\x60" :: (["let x = 1"] ++ "\x60\x60\x60" :: ["outro"]))
      false [] = some ["let x = 1"] :=
  ⟨by decide,
    (c3_extract_code_suggestion ["intro"] ["let x = 1"] ["outro"] ["tail"]
      "\x60\x60\x60" (by decide) (by decide) (by decide) (by decide)
      (by decide)).1⟩

theorem review_selection_unfold (panel : CodeReviewPanel) (sel : CodeSelection)
    (tid cid ecid : Nat) (mc : Bool)
    (he : sel.selected_text ≠ "") (h : rustTrim sel.selected_text ≠ "") :
    review_current_selection panel sel tid cid mc ecid =
      request_ai_review
        { panel with
          threads := panel.threads ++
            [ReviewThread.new tid cid sel
              (if rustTrim panel.input_text = "" then default_question
               else panel.input_text)],
          selected_thread := some tid, input_text := "" } tid mc ecid := by
  simp [review_current_selection, he, h]

theorem request_after_push (panel : CodeReviewPanel) (sel : CodeSelection)
    (tid cid ecid : Nat) (mc : Bool) (q : String)
    (hfresh : ∀ u ∈ panel.threads, u.id ≠ tid) :
    ∃ thr,
      (request_ai_review
          { panel with
            threads := panel.threads ++ [ReviewThread.new tid cid sel q],
            selected_thread := some tid, input_text := "" } tid mc ecid).threads =
        panel.threads ++ [thr]
      ∧ thr.id = tid
      ∧ thr.comments.head? = some (ReviewComment.user cid q)
      ∧ (request_ai_review
          { panel with
            threads := panel.threads ++ [ReviewThread.new tid cid sel q],
            selected_thread := some tid, input_text := "" } tid mc ecid).input_text
          = "" := by
  have hfind : (panel.threads ++ [ReviewThread.new tid cid sel q]).find?
      (fun u => u.id == tid) = some (ReviewThread.new tid cid sel q) :=
    find?_threads_split panel.threads [] (ReviewThread.new tid cid sel q) tid rfl
      hfresh
  cases mc with
  | true =>
    refine ⟨ReviewThread.new tid cid sel q, ?_, rfl, rfl, ?_⟩
    · simp [request_ai_review, hfind]
    · simp [request_ai_review, hfind]
  | false =>
    refine ⟨((ReviewThread.new tid cid sel q).add_ai_response ecid no_model_message
        ReviewSeverity.Error none).set_loading false, ?_, rfl, rfl, ?_⟩
    · simp only [request_ai_review, hfind, Bool.false_eq_true, if_false,
        add_error_to_thread]
      exact updateThread_split panel.threads [] (ReviewThread.new tid cid sel q)
        tid _ rfl hfresh
    · simp [request_ai_review, hfind, add_error_to_thread]

/-- Claim C4: a review request for a selection whose text is non-empty and
not whitespace-only appends exactly one new thread whose first comment is
the User question and which is created with `is_loading` true; a
whitespace-only selection creates nothing and leaves the panel
unchanged. -/
theorem c4_review_selection_creates_thread (panel : CodeReviewPanel)
    (sel : CodeSelection) (tid cid ecid : Nat) (mc : Bool) :
    (rustTrim sel.selected_text = "" →
        review_current_selection panel sel tid cid mc ecid = panel)
  ∧ (rustTrim sel.selected_text ≠ "" → (∀ u ∈ panel.threads, u.id ≠ tid) →
      ∃ thr,
        (review_current_selection panel sel tid cid mc ecid).threads =
          panel.threads ++ [thr]
        ∧ thr.id = tid
        ∧ thr.comments.head? = some (ReviewComment.user cid
            (if rustTrim panel.input_text = "" then default_question
             else panel.input_text))
        ∧ (ReviewThread.new tid cid sel
            (if rustTrim panel.input_text = "" then default_question
             else panel.input_text)).is_loading = true) := by
  constructor
  · intro h
    by_cases he : sel.selected_text = ""
    · simp [review_current_selection, he]
    · simp [review_current_selection, he, h]
  · intro h hfresh
    have he : sel.selected_text ≠ "" := by
      intro hcontra
      exact h (by rw [hcontra]; rfl)
    rw [review_selection_unfold panel sel tid cid ecid mc he h]
    obtain ⟨thr, h1, h2, h3, _⟩ := request_after_push panel sel tid cid ecid mc
      (if rustTrim panel.input_text = "" then default_question
       else panel.input_text) hfresh
    exact ⟨thr, h1, h2, h3, rfl⟩

/-- Witness for C4: a concrete review request on an empty panel creates
one thread headed by the default question. -/
theorem c4_review_selection_creates_thread_witness :
    rustTrim sampleSelection.selected_text ≠ ""
  ∧ ∃ thr,
      (review_current_selection
          { threads := [], selected_thread := none, pending_tasks := [],
            input_text := "" } sampleSelection 9 10 true 11).threads =
        [] ++ [thr]
      ∧ thr.id = 9
      ∧ thr.comments.head? = some (ReviewComment.user 10
          (if rustTrim ("" : String) = "" then default_question else ""))
      ∧ (ReviewThread.new 9 10 sampleSelection
          (if rustTrim ("" : String) = "" then default_question
           else "")).is_loading = true :=
  ⟨by decide,
    (c4_review_selection_creates_thread
        { threads := [], selected_thread := none, pending_tasks := [],
          input_text := "" } sampleSelection 9 10 11 true).2
      (by decide) (by simp)⟩

/-- Claim C5: with no model configured, dispatch synchronously appends an
Error-severity Assistant comment with the fixed no-model message to the
requesting thread, clears `is_loading`, and registers no pending task. -/
theorem c5_no_model_configured (panel : CodeReviewPanel) (tid ecid : Nat)
    (pre post : List ReviewThread) (t : ReviewThread)
    (hsplit : panel.threads = pre ++ t :: post) (hid : t.id = tid)
    (hpre : ∀ u ∈ pre, u.id ≠ tid) :
    (request_ai_review panel tid false ecid).threads =
      pre ++ { t with
        comments := t.comments ++
          [ReviewComment.ai ecid no_model_message ReviewSeverity.Error none],
        is_loading := false } :: post
  ∧ (request_ai_review panel tid false ecid).pending_tasks = panel.pending_tasks
  ∧ no_model_message =
      "No AI model configured. Please set up a language model in settings." := by
  have hfind : panel.threads.find? (fun u => u.id == tid) = some t := by
    rw [hsplit]
    exact find?_threads_split pre post t tid hid hpre
  have hstep : request_ai_review panel tid false ecid =
      add_error_to_thread panel tid ecid no_model_message := by
    simp [request_ai_review, hfind]
  refine ⟨?_, ?_, rfl⟩
  · rw [hstep]
    simp only [add_error_to_thread, hsplit]
    rw [updateThread_split pre post t tid _ hid hpre]
    simp [ReviewThread.add_ai_response, ReviewThread.set_loading]
  · rw [hstep]
    simp [add_error_to_thread]

/-- Witness for C5: the pending-task map is unchanged at a concrete
panel. -/
theorem c5_no_model_configured_witness :
    samplePanel.threads = [] ++ sampleThread :: []
  ∧ sampleThread.id = 1
  ∧ (request_ai_review samplePanel 1 false 7).pending_tasks =
      samplePanel.pending_tasks :=
  ⟨rfl, rfl,
    (c5_no_model_configured samplePanel 1 7 [] [] sampleThread rfl rfl
      (by simp)).2.1⟩

/-- Claim C6: `add_followup`, `resolve_thread` and
`toggle_thread_collapsed` on a thread id absent from the registry change
nothing at all — no thread mutated or created, no pending task registered,
no error raised. -/
theorem c6_unknown_id_noop (panel : CodeReviewPanel) (tid cid ecid : Nat)
    (q : String) (mc : Bool) (h : ∀ u ∈ panel.threads, u.id ≠ tid) :
    add_followup panel tid q cid mc ecid = panel
  ∧ resolve_thread panel tid = panel
  ∧ toggle_thread_collapsed panel tid = panel := by
  have hupd := updateThread_id_of_not_mem panel.threads tid
  have hfind := find?_threads_none panel.threads tid h
  refine ⟨?_, ?_, ?_⟩
  · simp only [add_followup, hupd _ h]
    simp [request_ai_review, hfind]
  · simp [resolve_thread, hupd _ h]
  · simp [toggle_thread_collapsed, hupd _ h]

/-- Witness for C6: a follow-up to an absent thread id leaves a concrete
panel unchanged. -/
theorem c6_unknown_id_noop_witness :
    (∀ u ∈ samplePanel.threads, u.id ≠ 42)
  ∧ add_followup samplePanel 42 "more" 5 true 6 = samplePanel :=
  ⟨by decide, (c6_unknown_id_noop samplePanel 42 5 6 "more" true (by decide)).1⟩

/-- Claim C7: after `clear_threads` has emptied the registry and the
pending-task map, a stale completion callback — whether it carries a
success or an error — creates no thread and leaves both collections
empty. -/
theorem c7_stale_completion_after_clear (panel : CodeReviewPanel)
    (tid cid : Nat)
    (res : Except String (String × ReviewSeverity × Option String)) :
    (on_stream_result (clear_threads panel) tid cid res).threads = []
  ∧ (on_stream_result (clear_threads panel) tid cid res).pending_tasks = [] := by
  cases res with
  | ok v =>
    obtain ⟨c, sev, sug⟩ := v
    simp [on_stream_result, clear_threads, updateThread]
  | error e =>
    simp [on_stream_result, clear_threads, add_error_to_thread, updateThread]

/-- Claim C10: when a review is requested with an empty or whitespace-only
input editor, the initiating User comment is exactly the fixed default
question; otherwise it is the input text verbatim; and the input editor is
cleared afterwards in both cases. -/
theorem c10_default_question (panel : CodeReviewPanel) (sel : CodeSelection)
    (tid cid ecid : Nat) (mc : Bool)
    (hsel : rustTrim sel.selected_text ≠ "")
    (hfresh : ∀ u ∈ panel.threads, u.id ≠ tid) :
    (review_current_selection panel sel tid cid mc ecid).input_text = ""
  ∧ (rustTrim panel.input_text = "" →
      ∃ thr,
        (review_current_selection panel sel tid cid mc ecid).threads =
          panel.threads ++ [thr]
        ∧ thr.comments.head? = some (ReviewComment.user cid
            "Please review this code and provide feedback on potential improvements, issues, or best practices."))
  ∧ (rustTrim panel.input_text ≠ "" →
      ∃ thr,
        (review_current_selection panel sel tid cid mc ecid).threads =
          panel.threads ++ [thr]
        ∧ thr.comments.head? = some (ReviewComment.user cid panel.input_text)) := by
  have he : sel.selected_text ≠ "" := by
    intro hcontra
    exact hsel (by rw [hcontra]; rfl)
  rw [review_selection_unfold panel sel tid cid ecid mc he hsel]
  obtain ⟨thr, h1, h2, h3, h4⟩ := request_after_push panel sel tid cid ecid mc
    (if rustTrim panel.input_text = "" then default_question
     else panel.input_text) hfresh
  refine ⟨h4, fun hin => ⟨thr, h1, ?_⟩, fun hin => ⟨thr, h1, ?_⟩⟩
  · rw [h3, if_pos hin]
    rfl
  · rw [h3, if_neg hin]

/-- Witness for C10: with an empty input editor the concrete new thread is
headed by the fixed default question. -/
theorem c10_default_question_witness :
    rustTrim sampleSelection.selected_text ≠ ""
  ∧ rustTrim ("" : String) = ""
  ∧ ∃ thr,
      (review_current_selection
          { threads := [], selected_thread := none, pending_tasks := [],
            input_text := "" } sampleSelection 9 10 true 11).threads =
        [] ++ [thr]
      ∧ thr.comments.head? = some (ReviewComment.user 10
          "Please review this code and provide feedback on potential improvements, issues, or best practices.") :=
  ⟨by decide, rfl,
    ((c10_default_question
        { threads := [], selected_thread := none, pending_tasks := [],
          input_text := "" } sampleSelection 9 10 11 true (by decide)
        (by simp)).2.1 rfl)⟩

theorem firstIsUser_append (l x : List ReviewComment)
    (h : firstIsUser l = true) : firstIsUser (l ++ x) = true := by
  cases l with
  | nil => exact absurd h (by simp [firstIsUser])
  | cons c cs => simpa [firstIsUser] using h

theorem head?_append_of_ne_nil (l x : List ReviewComment)
    (h : firstIsUser l = true) : (l ++ x).head? = l.head? := by
  cases l with
  | nil => exact absurd h (by simp [firstIsUser])
  | cons c cs => simp

theorem updateThread_mem_pres (P : ReviewThread → Prop) (tid : Nat)
    (f : ReviewThread → ReviewThread) (l : List ReviewThread)
    (hf : ∀ t, P t → P (f t)) (h : ∀ t ∈ l, P t) :
    ∀ t ∈ updateThread tid f l, P t := by
  induction l with
  | nil => simp [updateThread]
  | cons u us ih =>
    intro t ht
    simp only [updateThread] at ht
    by_cases hu : u.id = tid
    · rw [if_pos hu] at ht
      rcases List.mem_cons.mp ht with h1 | h2
      · exact h1 ▸ hf u (h u (by simp))
      · exact h t (by simp [h2])
    · rw [if_neg hu] at ht
      rcases List.mem_cons.mp ht with h1 | h2
      · exact h1 ▸ h u (by simp)
      · exact ih (fun v hv => h v (by simp [hv])) t h2

theorem add_ai_pres (t : ReviewThread) (cid : Nat) (c : String)
    (sev : ReviewSeverity) (sug : Option String)
    (h : firstCommentIsUser t = true) :
    firstCommentIsUser (t.add_ai_response cid c sev sug) = true :=
  firstIsUser_append t.comments _ h

theorem add_user_pres (t : ReviewThread) (cid : Nat) (c : String)
    (h : firstCommentIsUser t = true) :
    firstCommentIsUser (t.add_user_comment cid c) = true :=
  firstIsUser_append t.comments _ h

theorem add_error_to_thread_inv (panel : CodeReviewPanel) (tid cid : Nat)
    (msg : String) (h : PanelInv panel) :
    PanelInv (add_error_to_thread panel tid cid msg) :=
  updateThread_mem_pres _ tid _ panel.threads
    (fun t ht => add_ai_pres t cid msg ReviewSeverity.Error none ht) h

theorem request_ai_review_inv (panel : CodeReviewPanel) (tid : Nat)
    (mc : Bool) (ecid : Nat) (h : PanelInv panel) :
    PanelInv (request_ai_review panel tid mc ecid) := by
  unfold request_ai_review
  cases hfind : panel.threads.find? (fun t => t.id == tid) with
  | none => exact h
  | some u =>
    cases mc with
    | true => exact h
    | false => exact add_error_to_thread_inv panel tid ecid no_model_message h

theorem on_stream_result_inv (panel : CodeReviewPanel) (tid cid : Nat)
    (res : Except String (String × ReviewSeverity × Option String))
    (h : PanelInv panel) : PanelInv (on_stream_result panel tid cid res) := by
  cases res with
  | ok v =>
    obtain ⟨c, sev, sug⟩ := v
    exact updateThread_mem_pres _ tid _ panel.threads
      (fun t ht => add_ai_pres t cid c sev sug ht) h
  | error e => exact add_error_to_thread_inv panel tid cid _ h

/-- Claim C8: a thread is created with exactly its initiating User comment
and from then on `comments` stays non-empty with that User comment first;
every thread operation only appends to or leaves `comments` unchanged, and
every controller mutation preserves the registry-wide invariant. -/
theorem c8_first_comment_invariant :
    (∀ (tid cid : Nat) (sel : CodeSelection) (q : String),
        (ReviewThread.new tid cid sel q).comments = [ReviewComment.user cid q]
      ∧ firstCommentIsUser (ReviewThread.new tid cid sel q) = true)
  ∧ (∀ (t : ReviewThread) (cid : Nat) (c : String),
      firstCommentIsUser t = true →
        (t.add_user_comment cid c).comments.head? = t.comments.head?
      ∧ firstCommentIsUser (t.add_user_comment cid c) = true)
  ∧ (∀ (t : ReviewThread) (cid : Nat) (c : String) (sev : ReviewSeverity)
        (sug : Option String), firstCommentIsUser t = true →
        (t.add_ai_response cid c sev sug).comments.head? = t.comments.head?
      ∧ firstCommentIsUser (t.add_ai_response cid c sev sug) = true)
  ∧ (∀ (t : ReviewThread) (b : Bool), (t.set_loading b).comments = t.comments)
  ∧ (∀ t : ReviewThread, t.resolve.comments = t.comments)
  ∧ (∀ t : ReviewThread, t.toggle_collapsed.comments = t.comments)
  ∧ (∀ (panel : CodeReviewPanel) (tid cid : Nat)
        (res : Except String (String × ReviewSeverity × Option String)),
      PanelInv panel → PanelInv (on_stream_result panel tid cid res))
  ∧ (∀ (panel : CodeReviewPanel) (tid : Nat) (q : String) (cid : Nat)
        (mc : Bool) (ecid : Nat),
      PanelInv panel → PanelInv (add_followup panel tid q cid mc ecid))
  ∧ (∀ (panel : CodeReviewPanel) (sel : CodeSelection) (tid cid : Nat)
        (mc : Bool) (ecid : Nat),
      PanelInv panel →
        PanelInv (review_current_selection panel sel tid cid mc ecid))
  ∧ (∀ (panel : CodeReviewPanel) (tid : Nat),
      PanelInv panel → PanelInv (resolve_thread panel tid))
  ∧ (∀ (panel : CodeReviewPanel) (tid : Nat),
      PanelInv panel → PanelInv (toggle_thread_collapsed panel tid))
  ∧ (∀ panel : CodeReviewPanel, PanelInv (clear_threads panel)) := by
  refine ⟨fun tid cid sel q => ⟨rfl, rfl⟩,
    fun t cid c h =>
      ⟨head?_append_of_ne_nil t.comments _ h, add_user_pres t cid c h⟩,
    fun t cid c sev sug h =>
      ⟨head?_append_of_ne_nil t.comments _ h, add_ai_pres t cid c sev sug h⟩,
    fun t b => rfl, fun t => rfl, fun t => rfl,
    on_stream_result_inv,
    ?_, ?_,
    fun panel tid h =>
      updateThread_mem_pres _ tid _ panel.threads (fun t ht => ht) h,
    fun panel tid h =>
      updateThread_mem_pres _ tid _ panel.threads (fun t ht => ht) h,
    fun panel t ht => absurd ht (by simp [clear_threads])⟩
  · intro panel tid q cid mc ecid h
    unfold add_followup
    refine request_ai_review_inv _ tid mc ecid ?_
    exact updateThread_mem_pres _ tid _ panel.threads
      (fun t ht => add_user_pres t cid q ht) h
  · intro panel sel tid cid mc ecid h
    unfold review_current_selection
    by_cases he : sel.selected_text = ""
    · simpa [he] using h
    · by_cases ht : rustTrim sel.selected_text = ""
      · simpa [he, ht] using h
      · simp only [he, ht, if_false]
        refine request_ai_review_inv _ tid mc ecid ?_
        intro t hmem
        rcases List.mem_append.mp hmem with h1 | h2
        · exact h t h1
        · have heq : t = ReviewThread.new tid cid sel
              (if rustTrim panel.input_text = "" then default_question
               else panel.input_text) := by simpa using h2
          rw [heq]
          rfl

/-- Witness for C8: head preservation of `add_ai_response` at a concrete
thread. -/
theorem c8_first_comment_invariant_witness :
    firstCommentIsUser sampleThread = true
  ∧ (sampleThread.add_ai_response 5 "ok" ReviewSeverity.Info none).comments.head? =
      sampleThread.comments.head? :=
  ⟨by decide,
    (c8_first_comment_invariant.2.2.1 sampleThread 5 "ok" ReviewSeverity.Info none
      (by decide)).1⟩

theorem fold_user_comments (comments : List ReviewComment) (init : String) :
    comments.foldl
      (fun p c => if c.role == CommentRole.User then p ++ c.content ++ "\n" else p)
      init =
    init ++ String.join
      ((comments.filter (fun c => c.role == CommentRole.User)).map
        (fun c => c.content ++ "\n")) := by
  induction comments generalizing init with
  | nil => simp [String.join]
  | cons c cs ih =>
    by_cases hc : (c.role == CommentRole.User) = true
    · simp only [List.foldl_cons, List.filter_cons, hc, if_true, List.map_cons,
        string_join_cons]
      rw [ih]
      simp only [String.append_assoc]
    · simp only [List.foldl_cons, List.filter_cons, hc, if_false]
      rw [ih]
      simp only [Bool.not_eq_true] at hc
      simp [hc]

theorem fold_user_comments_assoc (comments : List ReviewComment) (init : String) :
    comments.foldl
      (fun p c =>
        if c.role == CommentRole.User then p ++ (c.content ++ "\n") else p)
      init =
    init ++ String.join
      ((comments.filter (fun c => c.role == CommentRole.User)).map
        (fun c => c.content ++ "\n")) := by
  have h := fold_user_comments comments init
  simpa [String.append_assoc] using h

/-- Claim C9: the built prompt is exactly the concatenation, in order, of
the spec-prescribed sections — custom instructions when present, persona
and guidelines, language tag when known, file path with 1-indexed
inclusive line range, fenced context, fenced selection, every
User-authored comment in thread order, trailing review cue — and the
resulting request has temperature 0.3, no tools, and the prompt as its
single user message. -/
theorem c9_prompt_structure (thread : ReviewThread) (custom : Option String) :
    build_review_prompt thread custom =
      String.join (spec_prompt_sections thread custom)
  ∧ (review_request (build_review_prompt thread custom)).temperature =
      some (3 / 10 : ℚ)
  ∧ (review_request (build_review_prompt thread custom)).tools = []
  ∧ (review_request (build_review_prompt thread custom)).messages =
      [{ role := Role.User,
         content := build_review_prompt thread custom, cache := false }] := by
  refine ⟨?_, rfl, rfl, rfl⟩
  cases custom with
  | none =>
    cases hl : thread.selection.language with
    | none =>
      simp only [build_review_prompt, spec_prompt_sections, hl, List.nil_append,
        List.cons_append, string_join_cons, string_join_append, string_join_nil,
        fold_user_comments_assoc, String.empty_append, String.append_empty,
        String.append_assoc]
    | some lang =>
      simp only [build_review_prompt, spec_prompt_sections, hl, List.nil_append,
        List.cons_append, string_join_cons, string_join_append, string_join_nil,
        fold_user_comments_assoc, String.empty_append, String.append_empty,
        String.append_assoc]
  | some custom =>
    cases hl : thread.selection.language with
    | none =>
      simp only [build_review_prompt, spec_prompt_sections, hl, List.nil_append,
        List.cons_append, string_join_cons, string_join_append, string_join_nil,
        fold_user_comments_assoc, String.empty_append, String.append_empty,
        String.append_assoc]
    | some lang =>
      simp only [build_review_prompt, spec_prompt_sections, hl, List.nil_append,
        List.cons_append, string_join_cons, string_join_append, string_join_nil,
        fold_user_comments_assoc, String.empty_append, String.append_empty,
        String.append_assoc]

end CodeReviewAssistant
